import Mathlib

/-!
Shallow embedding of the tick engine of the `territories` grid-world
simulation (`src/binding.c`).  C `int` fields are modelled as `Int`
(no value in the claims under study approaches 2^31), the `unsigned
short` tile properties and kinship bytes as `Int`/`ℕ` (their values
stay far below 2^16 on the paths the claims exercise), C `float`
accumulators as `ℚ`, and the flat C arrays as Lean lists addressed by
the same flat index expressions the C code uses.  An out-of-range
array write (undefined behaviour in C) is modelled as leaving the
array unchanged, and an out-of-range read returns an explicit default.
`rand()` is modelled by an oracle list of naturals carried in the
state (`rng`); the Fisher-Yates shuffle of the alive list is modelled
by passing the shuffled order as an input to the stepping function.
Rendering, logging statistics (except the two life-expectancy
accumulators touched by `kill_agent`) and the observation writer are
omitted: no claim below mentions them and they do not feed back into
the simulation state.
-/

/-- Crop growth constant `K` from `binding.c`. -/
noncomputable def growthK : ℝ := 0.07167543

def MAX_GROWTH_DURATION : Int := 70
def STARTING_DAY : Int := 55
def SUMMER_DURATION : Int := 100
def WINTER_DURATION : Int := 10
def WALL_HP_MAX : Int := 8
def MAX_SATIATION : Int := 100
def MAX_HP : Int := 3
def MAX_FOOD_CARRYING_CAPACITY : Int := 150
def MAX_STONE_CARRYING_CAPACITY : Int := 10
def MAX_FOOD_STORAGE_CAPACITY : Int := 150
def STONE_PER_MINE : Int := 600
def METABOLISM_RATE : Int := 5
def REPRODUCTION_AGE : Int := 10

/-- Action codes (enum `Action`). -/
def MOVE_UP : Int := 0
def MOVE_LEFT : Int := 3
def NOOP : Int := 4
def PICKUP : Int := 5
def MINE : Int := 6
def PACKAGE_FOOD : Int := 7
def BUILD_WALL : Int := 8
def ATTACK : Int := 9
def REPRODUCE : Int := 10

/-- `DELTAS[4][2]`: cardinal direction offsets (up, right, down, left). -/
def deltaOf (dir : Int) : Int × Int :=
  if dir = 0 then (-1, 0)
  else if dir = 1 then (0, 1)
  else if dir = 2 then (1, 0)
  else (0, -1)

/-- `ATTACK_SWORD[4][3][2]`: the three offsets of the 1x3 attack arc of
each direction, exactly as the static table in `binding.c`. -/
def ATTACK_SWORD : List (List (Int × Int)) :=
  [[(-1, -1), (-1, 0), (-1, 1)],
   [(-1, 1), (0, 1), (1, 1)],
   [(1, -1), (1, 0), (1, 1)],
   [(-1, -1), (0, -1), (1, -1)]]

/-- The eight Moore-neighbourhood offsets in the scan order used by
`find_empty_cell` and `_find_mate` (row offset -1..1, column offset
-1..1, centre skipped). -/
def MOORE_OFFSETS : List (Int × Int) :=
  [(-1, -1), (-1, 0), (-1, 1), (0, -1), (0, 1), (1, -1), (1, 0), (1, 1)]

/-- Per-slot agent record (struct `Agent`). -/
structure Agent where
  r : Int
  c : Int
  dir : Int
  hp : Int
  hp_max : Int
  satiation : Int
  max_satiation : Int
  age : Int
  food_carried : Int
  stone_carried : Int
  role : Int
deriving DecidableEq, Inhabited

/-- Per-cell tile record: the four `unsigned short` properties stored
in `tile_props` (indices LAST_HARVEST, STORED_FOOD, STONE, WALL_HP). -/
structure Tile where
  last_harvest : Int
  stored_food : Int
  stone : Int
  wall_hp : Int
deriving DecidableEq, Inhabited

/-- The engine state (struct `Territories` plus its `AgentManager`).
Flat C arrays become lists indexed by the same flat addresses. -/
structure Territories where
  width : Int
  height : Int
  max_agents : ℕ
  n_genes : ℕ
  n_roles : ℕ
  tick : Int
  is_winter : Bool
  is_soil : List Bool
  tile_props : List Tile
  pids_2d : List Int
  agents : List Agent
  actions : List Int
  dnas : List ℕ
  kinship_matrix : List ℕ
  family_sizes : List ℕ
  prev_family_sizes : List ℕ
  rewards : List ℚ
  terminals : List Bool
  alive_mask : List Bool
  alive_pids : List ℕ
  alive_count : ℕ
  free_pids : List ℕ
  next_pid : ℕ
  alive_bitset : Finset ℕ
  stats_life_expectancy : ℚ
  stats_agent_n : ℚ
  rng : List ℕ
deriving DecidableEq

/-- Read a list at a C-style (possibly negative) index; out-of-range
reads return the supplied default. -/
def listGetD {α : Type} (l : List α) (i : Int) (d : α) : α :=
  if 0 ≤ i then l.getD i.toNat d else d

/-- Write a list at a C-style index; an out-of-range write (undefined
behaviour in C) leaves the list unchanged. -/
def listSetI {α : Type} (l : List α) (i : Int) (v : α) : List α :=
  if 0 ≤ i then l.set i.toNat v else l

/-- `rand() % m` drawn from the oracle stream. -/
def c_rand (env : Territories) (m : ℕ) : ℕ × Territories :=
  (env.rng.headD 0 % m, { env with rng := env.rng.tail })

def tileAt (env : Territories) (r c : Int) : Tile :=
  listGetD env.tile_props (r * env.width + c) default

def setTileAt (env : Territories) (r c : Int) (t : Tile) : Territories :=
  { env with tile_props := listSetI env.tile_props (r * env.width + c) t }

def soilAt (env : Territories) (r c : Int) : Bool :=
  listGetD env.is_soil (r * env.width + c) false

def pidAt (env : Territories) (r c : Int) : Int :=
  listGetD env.pids_2d (r * env.width + c) (-1)

/-- Agent record of slot `pid` (ℕ index, as in the alive list). -/
def agentAt (env : Territories) (pid : ℕ) : Agent :=
  env.agents.getD pid default

/-- Agent record addressed by a C `int` slot index. -/
def agentAtI (env : Territories) (pid : Int) : Agent :=
  listGetD env.agents pid default

def setAgentN (env : Territories) (pid : ℕ) (a : Agent) : Territories :=
  { env with agents := env.agents.set pid a }

def setAgentI (env : Territories) (pid : Int) (a : Agent) : Territories :=
  { env with agents := listSetI env.agents pid a }

def aliveMaskGet (env : Territories) (pid : Int) : Bool :=
  listGetD env.alive_mask pid false

def actionOf (env : Territories) (pid : Int) : Int :=
  listGetD env.actions pid NOOP

def dnaGet (env : Territories) (pid : Int) (g : ℕ) : ℕ :=
  listGetD env.dnas (pid * env.n_genes + g) 0

/-- Kinship matrix entry at row `i`, column `j` (flat address
`i*max_agents + j`, as in the C code). -/
def kGetN (env : Territories) (i j : ℕ) : ℕ :=
  env.kinship_matrix.getD (i * env.max_agents + j) 0

/-- `bitset_add` (silent no-op when `x ≥ max_num`). -/
def bitset_add (max_num : ℕ) (s : Finset ℕ) (x : ℕ) : Finset ℕ :=
  if x < max_num then insert x s else s

/-- `bitset_remove` (silent no-op when `x ≥ max_num`). -/
def bitset_remove (max_num : ℕ) (s : Finset ℕ) (x : ℕ) : Finset ℕ :=
  if x < max_num then s.erase x else s

/-- `kinship_get`: number of genes on which the DNAs of the two slots
agree. -/
def kinship_get (env : Territories) (pid1 pid2 : Int) : ℕ :=
  (List.range env.n_genes).foldl
    (fun acc i => acc + if dnaGet env pid1 i = dnaGet env pid2 i then 1 else 0) 0

/-- `kinship_matrix_reset`: zero the matrix, then set every diagonal
entry to `n_genes`. -/
def kinship_matrix_reset (env : Territories) : Territories :=
  let m := (List.range env.max_agents).foldl
    (fun l i => l.set (i * env.max_agents + i) env.n_genes)
    (List.replicate (env.max_agents * env.max_agents) 0)
  { env with kinship_matrix := m }

/-- One iteration of the `kinship_matrix_update` loop body: for an
alive `pid2 ≠ pid`, write the kinship into both `(pid,pid2)` and
`(pid2,pid)` and accumulate it into `prev_family_sizes[pid]`. -/
def kinship_update_body (pid : Int) (e : Territories) (pid2 : ℕ) : Territories :=
  if ¬ aliveMaskGet e pid2 ∨ (pid2 : Int) = pid then e
  else
    let kin := kinship_get e pid pid2
    let e1 := { e with kinship_matrix := listSetI e.kinship_matrix (pid * e.max_agents + pid2) kin }
    let e2 := { e1 with kinship_matrix := listSetI e1.kinship_matrix ((pid2 : Int) * e1.max_agents + pid) kin }
    { e2 with prev_family_sizes := listSetI e2.prev_family_sizes pid (listGetD e2.prev_family_sizes pid 0 + kin) }

/-- `kinship_matrix_update`: called on the birth of `pid`, fills the
row and column of the new slot against every currently alive slot and
initialises `prev_family_sizes[pid]`. -/
def kinship_matrix_update (env : Territories) (pid : Int) : Territories :=
  let env := { env with prev_family_sizes := listSetI env.prev_family_sizes pid env.n_genes }
  (List.range env.max_agents).foldl (kinship_update_body pid) env

/-- `spawn_agent`: allocate a slot (free stack first, else the
high-water mark), mark it alive, initialise the record.  The random
initial direction consumes one oracle draw.  Returns `-1` when the
population cap is reached. -/
def spawn_agent (env : Territories) (r c : Int) : Int × Territories :=
  if env.max_agents ≤ env.alive_count then (-1, env)
  else
    let (pid, env) :=
      match env.free_pids with
      | p :: rest => (p, { env with free_pids := rest })
      | [] => (env.next_pid, { env with next_pid := env.next_pid + 1 })
    let env := { env with
      alive_mask := listSetI env.alive_mask pid true,
      alive_count := env.alive_count + 1,
      alive_bitset := bitset_add env.max_agents env.alive_bitset pid }
    let (d, env) := c_rand env 4
    let a := agentAt env pid
    let env := setAgentN env pid { a with
      r := r, c := c, dir := (d : Int), hp := 1, hp_max := 1,
      satiation := MAX_SATIATION, max_satiation := MAX_SATIATION,
      age := 0, food_carried := 0, stone_carried := 0 }
    ((pid : Int), env)

/-- `kill_agent`: free the slot and update the life-expectancy
accumulators; a slot whose alive flag is clear is left untouched. -/
def kill_agent (env : Territories) (pid : ℕ) : Territories :=
  if ¬ aliveMaskGet env pid then env
  else
    let env := { env with
      alive_mask := listSetI env.alive_mask pid false,
      free_pids := pid :: env.free_pids,
      alive_count := env.alive_count - 1,
      alive_bitset := bitset_remove env.max_agents env.alive_bitset pid }
    let a := agentAt env pid
    { env with
      stats_life_expectancy := env.stats_life_expectancy + (a.age : ℚ),
      stats_agent_n := env.stats_agent_n + 1 }

/-- `update_alive_pids`: rebuild the cached alive list by enumerating
the bitset in ascending order. -/
def update_alive_pids (env : Territories) : Territories :=
  let l := (List.range env.max_agents).filter (fun p => decide (p ∈ env.alive_bitset))
  { env with alive_pids := l }

/-- `get_growth_days`. -/
def get_growth_days (env : Territories) (r c : Int) : Int :=
  if env.is_winter ∨ soilAt env r c = false ∨
     0 < (tileAt env r c).stored_food ∨
     0 < (tileAt env r c).stone ∨
     0 < (tileAt env r c).wall_hp then 0
  else
    let day_number := Int.tmod (env.tick + STARTING_DAY) (SUMMER_DURATION + WINTER_DURATION)
    min (day_number - (tileAt env r c).last_harvest) MAX_GROWTH_DURATION

/-- `start_crop_growth`: reset `last_harvest` of every soil tile to 0. -/
def start_crop_growth (env : Territories) : Territories :=
  let t := (List.range env.tile_props.length).map (fun adr =>
    if env.is_soil.getD adr false then
      { env.tile_props.getD adr default with last_harvest := 0 }
    else env.tile_props.getD adr default)
  { env with tile_props := t }

/-- `crop_available`: the C code computes `(int)(exp(K*growth_days)-1)`
with double-precision `exp`; the cast truncates toward zero, and every
call site guards `growth_days > 0`, where `exp(K·gd) - 1 > 0` and
truncation coincides with the floor. -/
noncomputable def crop_available (gd : Int) : Int :=
  ⌊Real.exp (growthK * (gd : ℝ)) - 1⌋

/-- `tile_is_blocked`. -/
def tile_is_blocked (env : Territories) (r c : Int) : Bool :=
  0 < (tileAt env r c).wall_hp ∨
  0 < (tileAt env r c).stone ∨
  pidAt env r c ≠ -1

/-- `place_wall` (the sprite-index updates behind `env->client != NULL`
are rendering-only and omitted). -/
def place_wall (env : Territories) (r c : Int) : Territories :=
  if 0 < (tileAt env r c).wall_hp then env
  else
    setTileAt env r c
      { last_harvest := 0, stored_food := 0, stone := 0, wall_hp := WALL_HP_MAX }

/-- `destroy_wall` (sprite updates omitted). -/
def destroy_wall (env : Territories) (r c : Int) : Territories :=
  if (tileAt env r c).wall_hp = 0 then env
  else
    let env1 := setTileAt env r c { tileAt env r c with wall_hp := 0 }
    let day_number := Int.tmod (env1.tick + STARTING_DAY) (SUMMER_DURATION + WINTER_DURATION)
    if ¬ env1.is_winter ∧ soilAt env1 r c then
      setTileAt env1 r c { tileAt env1 r c with last_harvest := day_number }
    else env1

/-- `_agent_can_reproduce`. -/
def _agent_can_reproduce (a : Agent) : Bool :=
  REPRODUCTION_AGE ≤ a.age ∧ MAX_SATIATION / 2 < a.satiation

/-- `find_empty_cell`: flat address of the first unblocked Moore
neighbour, or `-1`. -/
def find_empty_cell (r c : Int) (env : Territories) : Int :=
  let R := env.height
  let C := env.width
  match (MOORE_OFFSETS.map (fun off =>
      (Int.tmod (r + off.1 + R) R, Int.tmod (c + off.2 + C) C))).find?
      (fun rc => ¬ tile_is_blocked env rc.1 rc.2) with
  | some rc => rc.1 * C + rc.2
  | none => -1

/-- `_find_mate`: the first Moore neighbour that is an agent whose raw
action this tick is `Reproduce` and who passes the fitness check. -/
def _find_mate (agent : Agent) (env : Territories) : Int :=
  let R := env.height
  let C := env.width
  match (MOORE_OFFSETS.map (fun off =>
      (Int.tmod (agent.r + off.1 + R) R, Int.tmod (agent.c + off.2 + C) C))).find?
      (fun rc =>
        pidAt env rc.1 rc.2 ≠ -1 ∧
        actionOf env (pidAt env rc.1 rc.2) = REPRODUCE ∧
        _agent_can_reproduce (agentAtI env (pidAt env rc.1 rc.2))) with
  | some rc => pidAt env rc.1 rc.2
  | none => -1

/-- DNA inheritance loop of `agent_reproduce`: each gene is copied from
one of the two parents according to an oracle draw (`rand() % 2`). -/
def inherit_dna (env : Territories) (child pid mate_pid : Int) : Territories :=
  (List.range env.n_genes).foldl (fun e j =>
    let (p, e) := c_rand e 2
    let allele := if p = 0 then dnaGet e pid j else dnaGet e mate_pid j
    { e with dnas := listSetI e.dnas (child * e.n_genes + j) allele }) env

/-- `agent_reproduce`.  Note: the source uses the result of
`find_empty_cell` without a `-1` guard; when every Moore neighbour is
blocked the parents still pay the satiation cost and the child is
spawned at row `(-1)/width`, column `(-1)%width` (C truncating
division, i.e. `(0, -1)`), with the grid write landing out of bounds.
The episode-statistics increment is omitted. -/
def agent_reproduce (pid : ℕ) (env : Territories) : Territories :=
  let agent := agentAt env pid
  if ¬ _agent_can_reproduce agent ∨ env.max_agents ≤ env.alive_count then env
  else
    let mate_pid := _find_mate agent env
    if mate_pid = -1 then env
    else
      let empty_adr := find_empty_cell agent.r agent.c env
      let env := setAgentN env pid { agent with satiation := agent.satiation - MAX_SATIATION / 2 }
      let mate := agentAtI env mate_pid
      let env := setAgentI env mate_pid { mate with satiation := mate.satiation - MAX_SATIATION / 2 }
      let new_r := Int.tdiv empty_adr env.width
      let new_c := Int.tmod empty_adr env.width
      let (child_pid, env) := spawn_agent env new_r new_c
      let env := { env with pids_2d := listSetI env.pids_2d (new_r * env.width + new_c) child_pid }
      let env := inherit_dna env child_pid pid mate_pid
      let (rrole, env) := c_rand env env.n_roles
      let env := setAgentI env child_pid { agentAtI env child_pid with role := (rrole : Int) }
      kinship_matrix_update env child_pid

/-- `agent_mine` (the episode-statistics increment is omitted). -/
def agent_mine (pid : ℕ) (env : Territories) : Territories :=
  let agent := agentAt env pid
  if MAX_STONE_CARRYING_CAPACITY ≤ agent.stone_carried then env
  else
    let R := env.height
    let C := env.width
    match ((List.range 4).map (fun d =>
        ((d : Int),
         Int.tmod (agent.r + (deltaOf d).1 + R) R,
         Int.tmod (agent.c + (deltaOf d).2 + C) C))).find?
        (fun x => 0 < (tileAt env x.2.1 x.2.2).stone) with
    | none => env
    | some x =>
      let t := tileAt env x.2.1 x.2.2
      let env := setTileAt env x.2.1 x.2.2 { t with stone := t.stone - 1 }
      setAgentN env pid { agent with dir := x.1, stone_carried := agent.stone_carried + 1 }

/-- The target-search loop of `agent_attack`: directions are scanned
clockwise from the agent's facing, but the body reads only
`deltas[dir][0]`, the FIRST offset of each direction's arc.  The first
examined cell holding a wall or an agent is returned with the
direction that found it. -/
def attack_scan (env : Territories) (agent : Agent) : Option (Int × Int × Int) :=
  ((List.range 4).map (fun direction =>
      let dir := Int.tmod (agent.dir + (direction : Int)) 4
      let d0 := (ATTACK_SWORD.getD dir.toNat []).getD 0 (0, 0)
      (dir,
       Int.tmod (agent.r + d0.1 + env.height) env.height,
       Int.tmod (agent.c + d0.2 + env.width) env.width))).find?
    (fun x => 0 < (tileAt env x.2.1 x.2.2).wall_hp ∨ pidAt env x.2.1 x.2.2 ≠ -1)

/-- `agent_attack` (episode statistics omitted).  On a wall hit the
wall loses one hit point; `destroy_wall` is then invoked, but it
returns immediately because the wall hit points are already zero.  On
an agent hit the target loses one hit point and, exactly when the
decrement lands on zero, the attacker loots; the commented-out
`kill_agent` lines of the source mean the target stays on the grid. -/
def agent_attack (pid : ℕ) (env : Territories) : Territories :=
  let agent := agentAt env pid
  match attack_scan env agent with
  | none => env
  | some x =>
    let dir := x.1
    let target_r := x.2.1
    let target_c := x.2.2
    let is_wall := 0 < (tileAt env target_r target_c).wall_hp
    let env := setAgentN env pid { agent with dir := dir }
    if is_wall then
      let t := tileAt env target_r target_c
      let env := setTileAt env target_r target_c { t with wall_hp := t.wall_hp - 1 }
      if (tileAt env target_r target_c).wall_hp = 0 then destroy_wall env target_r target_c
      else env
    else
      let target_pid := pidAt env target_r target_c
      let target := agentAtI env target_pid
      let env := setAgentI env target_pid { target with hp := target.hp - 1 }
      let target := agentAtI env target_pid
      if target.hp = 0 then
        let agent := agentAt env pid
        setAgentN env pid { agent with
          satiation := min MAX_SATIATION (agent.satiation + Int.tdiv target.satiation 2),
          stone_carried := min MAX_STONE_CARRYING_CAPACITY (agent.stone_carried + target.stone_carried),
          food_carried := min MAX_FOOD_CARRYING_CAPACITY (agent.food_carried + target.food_carried) }
      else env

/-- The pre-action update applied to each agent inside the shuffled
loop of `c_step`: ageing (with the hit-point upgrade on reaching
`REPRODUCTION_AGE`), metabolism, and auto-eating carried food
(food-eaten statistics omitted). -/
def pre_action_update (a : Agent) : Agent :=
  let a := { a with age := a.age + 1 }
  let a := if a.age = REPRODUCTION_AGE then { a with hp_max := MAX_HP, hp := MAX_HP } else a
  let a := { a with satiation := a.satiation - METABOLISM_RATE }
  if 0 < a.food_carried then
    let appetite := MAX_SATIATION - a.satiation
    let food_to_eat := min appetite a.food_carried
    { a with food_carried := a.food_carried - food_to_eat,
             satiation := a.satiation + food_to_eat }
  else a

/-- The movement branch of `c_step` (actions `MOVE_UP..MOVE_LEFT`):
the agent steps only when the action equals its facing and the
toroidal destination is unblocked; the facing is set to the action
regardless. -/
def agent_move (pid : ℕ) (action : Int) (env : Territories) : Territories :=
  let agent := agentAt env pid
  let R := env.height
  let C := env.width
  if action = agent.dir then
    let new_r := if action = 0 then agent.r - 1 else if action = 2 then agent.r + 1 else agent.r
    let new_c := if action = 1 then agent.c + 1 else if action = 3 then agent.c - 1 else agent.c
    let new_r := Int.tmod (new_r + R) R
    let new_c := Int.tmod (new_c + C) C
    if ¬ tile_is_blocked env new_r new_c then
      let env := { env with pids_2d := listSetI env.pids_2d (agent.r * C + agent.c) (-1) }
      let env := { env with pids_2d := listSetI env.pids_2d (new_r * C + new_c) (pid : Int) }
      setAgentN env pid { agent with r := new_r, c := new_c, dir := action }
    else setAgentN env pid { agent with dir := action }
  else setAgentN env pid { agent with dir := action }

/-- The `PICKUP` branch of `c_step`.  `day` is the `day_number` local
of `c_step`, computed from the pre-increment tick. -/
noncomputable def agent_pickup (day : Int) (pid : ℕ) (env : Territories) : Territories :=
  let agent := agentAt env pid
  let t := tileAt env agent.r agent.c
  let food_capacity := MAX_FOOD_CARRYING_CAPACITY - agent.food_carried
  if 0 < t.stored_food then
    let stored_food := t.stored_food
    let food_to_pickup := min stored_food food_capacity
    let t1 := { t with stored_food := t.stored_food - food_to_pickup }
    let t2 := if food_to_pickup = stored_food ∧ env.is_winter = false ∧ soilAt env agent.r agent.c
      then { t1 with last_harvest := day } else t1
    setAgentN (setTileAt env agent.r agent.c t2) pid
      { agent with food_carried := agent.food_carried + food_to_pickup }
  else
    let growth_days := get_growth_days env agent.r agent.c
    if 0 < growth_days then
      let ca := crop_available growth_days
      let food_to_pickup := min ca food_capacity
      let t1 := { t with last_harvest := day }
      let t2 := if food_to_pickup < ca then { t1 with stored_food := ca - food_to_pickup } else t1
      setAgentN (setTileAt env agent.r agent.c t2) pid
        { agent with food_carried := agent.food_carried + food_to_pickup }
    else env

/-- The `PACKAGE_FOOD` branch of `c_step` (statistics omitted). -/
noncomputable def agent_package (day : Int) (pid : ℕ) (env : Territories) : Territories :=
  let agent := agentAt env pid
  let growth_days := get_growth_days env agent.r agent.c
  let env :=
    if 0 < growth_days then
      let ca := crop_available growth_days
      let t := tileAt env agent.r agent.c
      setTileAt env agent.r agent.c { t with last_harvest := day, stored_food := t.stored_food + ca }
    else env
  let agent := agentAt env pid
  if 0 < agent.food_carried then
    let t := tileAt env agent.r agent.c
    let tile_storage_capacity := MAX_FOOD_STORAGE_CAPACITY - t.stored_food
    let food_to_drop := min agent.food_carried tile_storage_capacity
    setAgentN (setTileAt env agent.r agent.c { t with stored_food := t.stored_food + food_to_drop })
      pid { agent with food_carried := agent.food_carried - food_to_drop }
  else env

/-- The `BUILD_WALL` branch of `c_step` (statistics omitted). -/
def agent_build_wall (pid : ℕ) (env : Territories) : Territories :=
  let agent := agentAt env pid
  if 0 < agent.stone_carried then
    let R := env.height
    let C := env.width
    let wall_r := Int.tmod (agent.r + (deltaOf agent.dir).1 + R) R
    let wall_c := Int.tmod (agent.c + (deltaOf agent.dir).2 + C) C
    if ¬ tile_is_blocked env wall_r wall_c then
      let env := place_wall env wall_r wall_c
      setAgentN env pid { agentAt env pid with stone_carried := (agentAt env pid).stone_carried - 1 }
    else env
  else env

/-- Action dispatch of the shuffled loop of `c_step`; any action code
outside the enum falls through every branch and acts as `Noop`. -/
noncomputable def execute_action (day : Int) (pid : ℕ) (action : Int) (env : Territories) : Territories :=
  if MOVE_UP ≤ action ∧ action ≤ MOVE_LEFT then agent_move pid action env
  else if action = PICKUP then agent_pickup day pid env
  else if action = MINE then agent_mine pid env
  else if action = PACKAGE_FOOD then agent_package day pid env
  else if action = BUILD_WALL then agent_build_wall pid env
  else if action = ATTACK then agent_attack pid env
  else if action = REPRODUCE then agent_reproduce pid env
  else env

/-- One iteration of the shuffled action loop of `c_step`: an agent
whose hit points are already ≤ 0 is skipped entirely (`continue`);
otherwise the pre-action update runs and its action executes
(starvation statistics omitted). -/
noncomputable def act_one (day : Int) (env : Territories) (pid : ℕ) : Territories :=
  let agent := agentAt env pid
  if agent.hp ≤ 0 then env
  else
    let env := setAgentN env pid (pre_action_update agent)
    execute_action day pid (actionOf env pid) env

/-- The death sweep of `c_step`: every listed slot with satiation ≤ 0
or hp ≤ 0 is killed, its grid cell cleared and its terminal flag set.
The iteration list is the alive list captured before the sweep, which
`kill_agent` does not modify. -/
def death_sweep (env : Territories) : Territories :=
  env.alive_pids.foldl (fun e pid =>
    let agent := agentAt e pid
    if agent.satiation ≤ 0 ∨ agent.hp ≤ 0 then
      let e := kill_agent e pid
      let e := { e with pids_2d := listSetI e.pids_2d (agent.r * e.width + agent.c) (-1) }
      { e with terminals := listSetI e.terminals pid true }
    else e) env

/-- `c_step` without its reset-at-episode-end branch, the truncation
flags, the reward computation and the observation writer: terminal
clearing, the season transition, the tick increment, the shuffled
action pass (the shuffled order is the `order` argument), the alive
list refresh and the death sweep.  The omitted reward and observation
phases write only `family_sizes`, `prev_family_sizes`, `rewards` and
`observations`, and never the agent table, tile properties or grid. -/
noncomputable def c_step_core (env : Territories) (order : List ℕ) : Territories :=
  let env := { env with terminals := List.replicate env.max_agents false }
  let day_number := Int.tmod (env.tick + STARTING_DAY) (SUMMER_DURATION + WINTER_DURATION)
  let env :=
    if ¬ env.is_winter ∧ SUMMER_DURATION ≤ day_number then { env with is_winter := true }
    else if env.is_winter ∧ day_number < SUMMER_DURATION then
      start_crop_growth { env with is_winter := false }
    else env
  let env := { env with tick := env.tick + 1 }
  let env := { env with alive_pids := order }
  let env := order.foldl (act_one day_number) env
  let env := update_alive_pids env
  let env := death_sweep env
  update_alive_pids env

/-- One iteration of the `_delta_rewards` loop: for a slot that is
alive or terminated this tick, recompute its family size across the
current alive list and write its delta reward (total-reward statistics
omitted). -/
def delta_rewards_body (e : Territories) (pid : ℕ) : Territories :=
  if aliveMaskGet e pid ∨ e.terminals.getD pid false then
    let fs := e.alive_pids.foldl (fun acc pid2 => acc + kGetN e pid pid2) 0
    let e1 := { e with family_sizes := e.family_sizes.set pid fs }
    let rw := ((fs : ℚ) - (e1.prev_family_sizes.getD pid 0 : ℚ)) / (e1.n_genes : ℚ)
    { e1 with rewards := e1.rewards.set pid rw }
  else e

/-- `_delta_rewards`: the reward loop followed by the `memcpy` of
`family_sizes` over `prev_family_sizes`. -/
def _delta_rewards (env : Territories) : Territories :=
  let env := (List.range env.max_agents).foldl delta_rewards_body env
  { env with prev_family_sizes := env.family_sizes }

/-- An otherwise empty engine state, used to build the concrete states
below: `W×H` torus, `M` agent slots, `G` genes, nobody alive. -/
def mkEnv (W H : Int) (M G : ℕ) : Territories where
  width := W
  height := H
  max_agents := M
  n_genes := G
  n_roles := 1
  tick := 0
  is_winter := false
  is_soil := List.replicate (W * H).toNat false
  tile_props := List.replicate (W * H).toNat default
  pids_2d := List.replicate (W * H).toNat (-1)
  agents := List.replicate M default
  actions := List.replicate M NOOP
  dnas := List.replicate (M * G) 0
  kinship_matrix := List.replicate (M * M) 0
  family_sizes := List.replicate M 0
  prev_family_sizes := List.replicate M 0
  rewards := List.replicate M 0
  terminals := List.replicate M false
  alive_mask := List.replicate M false
  alive_pids := []
  alive_count := 0
  free_pids := []
  next_pid := 0
  alive_bitset := ∅
  stats_life_expectancy := 0
  stats_agent_n := 0
  rng := []

/-- A healthy adult agent at `(r,c)` facing right. -/
def mkAgent (r c : Int) : Agent where
  r := r
  c := c
  dir := 1
  hp := 3
  hp_max := 3
  satiation := 80
  max_satiation := 100
  age := 20
  food_carried := 0
  stone_carried := 0
  role := 0

/-- A 3×3 world with one agent at `(1,1)` facing right and a full wall
directly ahead of it at `(1,2)`. -/
def attackEnv : Territories :=
  { mkEnv 3 3 1 1 with
    agents := [mkAgent 1 1]
    pids_2d := [-1, -1, -1, -1, 0, -1, -1, -1, -1]
    tile_props := (List.replicate 9 default).set 5
      { last_harvest := 0, stored_food := 0, stone := 0, wall_hp := 8 }
    alive_mask := [true]
    alive_pids := [0]
    alive_count := 1
    alive_bitset := {0}
    next_pid := 1 }

/-- A 3×3 world whose nine cells all hold agents (slots 0–8, slot 4 in
the centre), slot capacity 10.  The centre agent and its upper-left
neighbour (slot 0) both chose `Reproduce`; every Moore neighbour of
the centre is blocked by an agent. -/
def blockedReproEnv : Territories :=
  { mkEnv 3 3 10 1 with
    agents := [mkAgent 0 0, mkAgent 0 1, mkAgent 0 2, mkAgent 1 0, mkAgent 1 1,
               mkAgent 1 2, mkAgent 2 0, mkAgent 2 1, mkAgent 2 2, default]
    pids_2d := [0, 1, 2, 3, 4, 5, 6, 7, 8]
    actions := [REPRODUCE, NOOP, NOOP, NOOP, REPRODUCE, NOOP, NOOP, NOOP, NOOP, NOOP]
    alive_mask := [true, true, true, true, true, true, true, true, true, false]
    alive_pids := [0, 1, 2, 3, 4, 5, 6, 7, 8]
    alive_count := 9
    alive_bitset := {0, 1, 2, 3, 4, 5, 6, 7, 8}
    next_pid := 9
    rng := [0, 0, 0] }

/-- The per-slot invariant of claim C4 as a decidable check: every
alive slot has `0 < hp ≤ hp_max`, `0 < satiation ≤ max_satiation`,
in-range coordinates and `pid_at[r,c] = pid`. -/
def agent_invariants (env : Territories) : Bool :=
  (List.range env.max_agents).all (fun p =>
    !(aliveMaskGet env p) ||
      (decide (0 < (agentAt env p).hp) && decide ((agentAt env p).hp ≤ (agentAt env p).hp_max) &&
       decide (0 < (agentAt env p).satiation) &&
       decide ((agentAt env p).satiation ≤ (agentAt env p).max_satiation) &&
       decide (0 ≤ (agentAt env p).r) && decide ((agentAt env p).r < env.height) &&
       decide (0 ≤ (agentAt env p).c) && decide ((agentAt env p).c < env.width) &&
       decide (pidAt env (agentAt env p).r (agentAt env p).c = (p : Int))))

/-- The state after one action pass and death sweep on
`blockedReproEnv`, with the centre agent acting first. -/
noncomputable def blockedReproStep : Territories :=
  c_step_core blockedReproEnv [4, 0, 1, 2, 3, 5, 6, 7, 8]

/-- A 1×1 world holding a single agent with 0 hp. -/
def deadAgentEnv : Territories :=
  { mkEnv 1 1 1 1 with
    agents := [{ mkAgent 0 0 with hp := 0 }]
    pids_2d := [0]
    alive_mask := [true]
    alive_pids := [0]
    alive_count := 1
    alive_bitset := {0}
    next_pid := 1 }

/-- The family size of slot `p` as the specification states it: the
sum of the kinship-matrix row entries of `p` over the current alive
list. -/
def familySizeOf (env : Territories) (p : ℕ) : ℕ :=
  (env.alive_pids.map (fun q => kGetN env p q)).sum

/-- A 2×2 world with slot 0 alive and slot 1 free, one gene. -/
def deltaEnv : Territories :=
  { mkEnv 2 2 2 1 with
    agents := [mkAgent 0 0, mkAgent 0 1]
    pids_2d := [0, -1, -1, -1]
    kinship_matrix := [1, 0, 0, 1]
    alive_mask := [true, false]
    alive_pids := [0]
    alive_count := 1
    alive_bitset := {0}
    next_pid := 1 }

/-- A 1×1 soil world at tick 1 with one growth day accumulated. -/
def cropEnv : Territories :=
  { mkEnv 1 1 1 1 with
    is_soil := [true]
    tick := 1
    agents := [mkAgent 0 0]
    pids_2d := [0]
    tile_props := [{ last_harvest := 55, stored_food := 0, stone := 0, wall_hp := 0 }]
    alive_mask := [true]
    alive_pids := [0]
    alive_count := 1
    alive_bitset := {0}
    next_pid := 1 }

/-- A 3×3 world: attacker slot 0 at `(1,1)` facing right; slot 1 at
`(0,2)` — the first cell the attack scan examines — already at 0 hp
and still on the grid, carrying satiation 40, stone 2 and food 10. -/
def lootEnv : Territories :=
  { mkEnv 3 3 2 1 with
    agents := [{ mkAgent 1 1 with satiation := 50 },
               { mkAgent 0 2 with hp := 0, satiation := 40, stone_carried := 2, food_carried := 10 }]
    pids_2d := [-1, -1, 1, -1, 0, -1, -1, -1, -1]
    alive_mask := [true, true]
    alive_pids := [0, 1]
    alive_count := 2
    alive_bitset := {0, 1}
    next_pid := 2 }

/-- Like `lootEnv` but the target still has 1 hp, so the attack lands
exactly on zero and loots. -/
def lootEnv2 : Territories :=
  { mkEnv 3 3 2 1 with
    agents := [{ mkAgent 1 1 with satiation := 50 },
               { mkAgent 0 2 with hp := 1, satiation := 40, stone_carried := 2, food_carried := 10 }]
    pids_2d := [-1, -1, 1, -1, 0, -1, -1, -1, -1]
    alive_mask := [true, true]
    alive_pids := [0, 1]
    alive_count := 2
    alive_bitset := {0, 1}
    next_pid := 2 }

/-- A 1×1 non-soil world whose single empty tile has a non-zero
`last_harvest` stamp. -/
def wallEnv : Territories :=
  { mkEnv 1 1 1 1 with
    tile_props := [{ last_harvest := 5, stored_food := 0, stone := 0, wall_hp := 0 }] }

/-- The invariant of claim C7: diagonal `n_genes` and symmetry of the
kinship matrix over all slots. -/
def KinshipInv (env : Territories) : Prop :=
  ∀ i < env.max_agents, kGetN env i i = env.n_genes ∧
    ∀ j < env.max_agents, kGetN env i j = kGetN env j i

instance (env : Territories) : Decidable (KinshipInv env) := by
  unfold KinshipInv
  infer_instance

/-- Claim C1: the claim says the attack resolver examines, within each
scanned direction, all three cells of that direction's 1×3 arc, so an
attack with a wall directly ahead (the second cell of the facing arc)
must hit it.  The code reads only offset `[0]` of each `ATTACK_SWORD`
arc: in `attackEnv` the agent faces right with a full wall straight
ahead at `(1,2)`, yet the attack examines only `(0,2)`, `(2,0)`,
`(0,0)`, `(0,0)` and leaves the whole state unchanged. -/
theorem attack_reads_only_first_arc_offset :
    (tileAt attackEnv 1 2).wall_hp = 8 ∧ (agentAt attackEnv 0).dir = 1 ∧
    agent_attack 0 attackEnv = attackEnv := by
  refine ⟨by decide, by decide, ?_⟩
  decide

/-- Claim C2: the claim says that when every Moore neighbour of the
reproducing agent is blocked, the action leaves the parents'
satiation, the agent table and the grid unchanged.  In
`blockedReproEnv`, `find_empty_cell` returns `-1`, yet
`agent_reproduce` still deducts `max_satiation/2 = 50` from both
parents and spawns a child slot (the unguarded use of the `-1`
address). -/
theorem reproduce_without_empty_cell_still_spends :
    find_empty_cell 1 1 blockedReproEnv = -1 ∧
    (agentAt blockedReproEnv 4).satiation = 80 ∧
    (agentAt blockedReproEnv 0).satiation = 80 ∧
    (agentAt (agent_reproduce 4 blockedReproEnv) 4).satiation = 30 ∧
    (agentAt (agent_reproduce 4 blockedReproEnv) 0).satiation = 30 ∧
    (agent_reproduce 4 blockedReproEnv).alive_count = 10 := by
  decide

set_option maxRecDepth 100000 in
/-- Claim C4: the claim asserts that after every `step` each alive
slot satisfies the hp/satiation bounds and `pid_at[r,c] = pid`.
Starting from `blockedReproEnv`, which satisfies the invariant, one
step in which the fully surrounded centre agent reproduces leaves the
child slot 9 alive at column `-1`, present in no grid cell, so the
invariant fails after the step. -/
theorem step_invariant_broken_by_blocked_reproduction :
    agent_invariants blockedReproEnv = true ∧
    aliveMaskGet blockedReproStep 9 = true ∧
    (agentAt blockedReproStep 9).c = -1 ∧
    blockedReproStep.pids_2d.contains 9 = false ∧
    agent_invariants blockedReproStep = false := by
  decide

/-- Claim C9: an agent whose hp already dropped to 0 or below when its
turn comes is skipped entirely by the shuffled action loop: its record
is untouched, it does not eat, and its action is not executed. -/
theorem dead_agent_iteration_skipped (day : Int) (env : Territories) (pid : ℕ)
    (h : (agentAt env pid).hp ≤ 0) : act_one day env pid = env := by
  unfold act_one
  simp [h]

/-- Witness for claim C9 at a concrete state. -/
theorem dead_agent_iteration_skipped_witness :
    (agentAt deadAgentEnv 0).hp ≤ 0 ∧ act_one 55 deadAgentEnv 0 = deadAgentEnv :=
  ⟨by decide, dead_agent_iteration_skipped 55 deadAgentEnv 0 (by decide)⟩

/-- Claim C10: `kill_agent` on a slot whose alive flag is clear is a
complete no-op: free stack, bitset, mask, count and the life
expectancy accumulators are all unchanged. -/
theorem kill_agent_dead_slot_noop (env : Territories) (pid : ℕ)
    (h : aliveMaskGet env pid = false) : kill_agent env pid = env := by
  unfold kill_agent
  simp [h]

/-- Witness for claim C10 at a concrete state. -/
theorem kill_agent_dead_slot_noop_witness :
    aliveMaskGet (mkEnv 2 2 2 1) 1 = false ∧ kill_agent (mkEnv 2 2 2 1) 1 = mkEnv 2 2 2 1 :=
  ⟨by decide, kill_agent_dead_slot_noop (mkEnv 2 2 2 1) 1 (by decide)⟩

theorem listGetD_set_ne {α : Type} (l : List α) (i j : ℕ) (v d : α) (h : i ≠ j) :
    (l.set i v).getD j d = l.getD j d := by
  induction l generalizing i j with
  | nil => simp
  | cons a t ih =>
    cases i with
    | zero =>
      cases j with
      | zero => exact absurd rfl h
      | succ j => simp
    | succ i =>
      cases j with
      | zero => simp
      | succ j => simpa using ih i j (by omega)

theorem listGetD_set_self {α : Type} (l : List α) (i : ℕ) (v d : α) (h : i < l.length) :
    (l.set i v).getD i d = v := by
  induction l generalizing i with
  | nil => simp at h
  | cons a t ih =>
    cases i with
    | zero => simp
    | succ i => simpa using ih i (by simpa using h)

theorem listSet_getD_self {α : Type} (l : List α) (i : ℕ) (d : α) :
    l.set i (l.getD i d) = l := by
  induction l generalizing i with
  | nil => simp
  | cons a t ih =>
    cases i with
    | zero => simp
    | succ i =>
      show a :: t.set i (t.getD i d) = a :: t
      rw [ih]

theorem foldl_add_map {α : Type} (f : α → ℕ) (l : List α) (n : ℕ) :
    l.foldl (fun acc x => acc + f x) n = n + (l.map f).sum := by
  induction l generalizing n with
  | nil => simp
  | cons a t ih => simp [ih, Nat.add_assoc]

theorem delta_body_frozen (e : Territories) (a : ℕ) :
    (delta_rewards_body e a).max_agents = e.max_agents ∧
    (delta_rewards_body e a).n_genes = e.n_genes ∧
    (delta_rewards_body e a).alive_mask = e.alive_mask ∧
    (delta_rewards_body e a).terminals = e.terminals ∧
    (delta_rewards_body e a).alive_pids = e.alive_pids ∧
    (delta_rewards_body e a).kinship_matrix = e.kinship_matrix ∧
    (delta_rewards_body e a).prev_family_sizes = e.prev_family_sizes := by
  unfold delta_rewards_body
  split <;> exact ⟨rfl, rfl, rfl, rfl, rfl, rfl, rfl⟩

theorem delta_body_lengths (e : Territories) (a : ℕ) :
    (delta_rewards_body e a).family_sizes.length = e.family_sizes.length ∧
    (delta_rewards_body e a).rewards.length = e.rewards.length := by
  unfold delta_rewards_body
  split <;> simp

theorem familySizeOf_delta_body (e : Territories) (a p : ℕ) :
    familySizeOf (delta_rewards_body e a) p = familySizeOf e p := by
  unfold delta_rewards_body
  split <;> rfl

theorem delta_body_other (e : Territories) (q p : ℕ) (hne : q ≠ p) :
    (delta_rewards_body e q).family_sizes.getD p 0 = e.family_sizes.getD p 0 ∧
    (delta_rewards_body e q).rewards.getD p 0 = e.rewards.getD p 0 := by
  unfold delta_rewards_body
  split
  · exact ⟨listGetD_set_ne _ _ _ _ _ hne, listGetD_set_ne _ _ _ _ _ hne⟩
  · exact ⟨rfl, rfl⟩

theorem delta_fold_not_mem (L : List ℕ) (p : ℕ) (hp : p ∉ L) (e : Territories) :
    (L.foldl delta_rewards_body e).family_sizes.getD p 0 = e.family_sizes.getD p 0 ∧
    (L.foldl delta_rewards_body e).rewards.getD p 0 = e.rewards.getD p 0 := by
  induction L generalizing e with
  | nil => exact ⟨rfl, rfl⟩
  | cons a t ih =>
    have hmem : a ≠ p ∧ p ∉ t := by
      constructor
      · intro h
        exact hp (by simp [h])
      · intro h
        exact hp (by simp [h])
    have h1 := delta_body_other e a p hmem.1
    have h2 := ih hmem.2 (delta_rewards_body e a)
    exact ⟨h2.1.trans h1.1, h2.2.trans h1.2⟩

theorem delta_body_self (e : Territories) (p : ℕ)
    (hlen : p < e.family_sizes.length) (hlenr : p < e.rewards.length)
    (hcond : aliveMaskGet e p = true ∨ e.terminals.getD p false = true) :
    (delta_rewards_body e p).family_sizes.getD p 0 = familySizeOf e p ∧
    (delta_rewards_body e p).rewards.getD p 0 =
      ((familySizeOf e p : ℚ) - (e.prev_family_sizes.getD p 0 : ℚ)) / (e.n_genes : ℚ) := by
  unfold delta_rewards_body
  rw [if_pos hcond]
  constructor
  · show (e.family_sizes.set p _).getD p 0 = _
    rw [listGetD_set_self _ _ _ _ hlen, foldl_add_map]
    simp [familySizeOf]
  · show (e.rewards.set p _).getD p 0 = _
    rw [listGetD_set_self _ _ _ _ hlenr, foldl_add_map]
    simp [familySizeOf]

theorem delta_body_cond (e : Territories) (a p : ℕ) :
    (aliveMaskGet (delta_rewards_body e a) p = true ∨
      (delta_rewards_body e a).terminals.getD p false = true)
    ↔ (aliveMaskGet e p = true ∨ e.terminals.getD p false = true) := by
  have h := delta_body_frozen e a
  unfold aliveMaskGet listGetD
  rw [h.2.2.1, h.2.2.2.1]

theorem delta_fold_mem (L : List ℕ) (p : ℕ) (e : Territories)
    (hmem : p ∈ L) (hnd : L.Nodup)
    (hlen : p < e.family_sizes.length) (hlenr : p < e.rewards.length)
    (hcond : aliveMaskGet e p = true ∨ e.terminals.getD p false = true) :
    (L.foldl delta_rewards_body e).family_sizes.getD p 0 = familySizeOf e p ∧
    (L.foldl delta_rewards_body e).rewards.getD p 0 =
      ((familySizeOf e p : ℚ) - (e.prev_family_sizes.getD p 0 : ℚ)) / (e.n_genes : ℚ) := by
  induction L generalizing e with
  | nil => simp at hmem
  | cons a t ih =>
    rw [List.foldl_cons]
    by_cases hap : a = p
    · subst hap
      have hnotin : a ∉ t := (List.nodup_cons.mp hnd).1
      have h1 := delta_body_self e a hlen hlenr hcond
      have h2 := delta_fold_not_mem t a hnotin (delta_rewards_body e a)
      exact ⟨h2.1.trans h1.1, h2.2.trans h1.2⟩
    · have ht : p ∈ t := by
        rcases List.mem_cons.mp hmem with h | h
        · exact absurd h.symm hap
        · exact h
      have hfro := delta_body_frozen e a
      have hlens := delta_body_lengths e a
      have ihres := ih (delta_rewards_body e a) ht (List.nodup_cons.mp hnd).2
        (by omega) (by omega) ((delta_body_cond e a p).mpr hcond)
      rw [familySizeOf_delta_body] at ihres
      rw [show (delta_rewards_body e a).prev_family_sizes = e.prev_family_sizes from
            hfro.2.2.2.2.2.2,
          show (delta_rewards_body e a).n_genes = e.n_genes from hfro.2.1] at ihres
      exact ihres

/-- Claim C3: in delta reward mode, after the reward pass every slot
`p` that is alive or terminated this tick has `family_sizes[p]` equal
to the sum of its kinship row over the current alive list and
`rewards[p] = (family_sizes[p] - prev_family_sizes[p]) / n_genes`
(modelled over `ℚ`; the C floats are exact on these values), and
afterwards `prev_family_sizes` equals `family_sizes` on every slot. -/
theorem delta_rewards_spec (env : Territories) (p : ℕ)
    (hp : p < env.max_agents)
    (hlen : env.family_sizes.length = env.max_agents)
    (hlenr : env.rewards.length = env.max_agents)
    (hcond : aliveMaskGet env p = true ∨ env.terminals.getD p false = true) :
    (_delta_rewards env).family_sizes.getD p 0 = familySizeOf env p ∧
    (_delta_rewards env).rewards.getD p 0 =
      ((familySizeOf env p : ℚ) - (env.prev_family_sizes.getD p 0 : ℚ)) / (env.n_genes : ℚ) ∧
    (_delta_rewards env).prev_family_sizes = (_delta_rewards env).family_sizes := by
  have h := delta_fold_mem (List.range env.max_agents) p env
    (List.mem_range.mpr hp) (List.nodup_range _) (by omega) (by omega) hcond
  exact ⟨h.1, h.2, rfl⟩

/-- Witness for claim C3 at a concrete state. -/
theorem delta_rewards_spec_witness :
    (0 < deltaEnv.max_agents ∧ deltaEnv.family_sizes.length = deltaEnv.max_agents ∧
     deltaEnv.rewards.length = deltaEnv.max_agents ∧ aliveMaskGet deltaEnv 0 = true) ∧
    ((_delta_rewards deltaEnv).family_sizes.getD 0 0 = familySizeOf deltaEnv 0 ∧
     (_delta_rewards deltaEnv).rewards.getD 0 0 =
       ((familySizeOf deltaEnv 0 : ℚ) - (deltaEnv.prev_family_sizes.getD 0 0 : ℚ)) /
         (deltaEnv.n_genes : ℚ) ∧
     (_delta_rewards deltaEnv).prev_family_sizes = (_delta_rewards deltaEnv).family_sizes) :=
  ⟨⟨by decide, by decide, by decide, by decide⟩,
   delta_rewards_spec deltaEnv 0 (by decide) (by decide) (by decide) (Or.inl (by decide))⟩

theorem listGetD_setI_self {α : Type} (l : List α) (i : Int) (v d : α)
    (h0 : 0 ≤ i) (h : i.toNat < l.length) : listGetD (listSetI l i v) i d = v := by
  unfold listGetD listSetI
  rw [if_pos h0, if_pos h0]
  exact listGetD_set_self _ _ _ _ h

theorem agentAt_setAgentN_self (env : Territories) (pid : ℕ) (a : Agent)
    (h : pid < env.agents.length) : agentAt (setAgentN env pid a) pid = a := by
  unfold agentAt setAgentN
  exact listGetD_set_self _ _ _ _ h

theorem tileAt_setAgentN (env : Territories) (pid : ℕ) (a : Agent) (r c : Int) :
    tileAt (setAgentN env pid a) r c = tileAt env r c := rfl

theorem tileAt_setTileAt_self (env : Territories) (r c : Int) (t : Tile)
    (h0 : 0 ≤ r * env.width + c)
    (h : (r * env.width + c).toNat < env.tile_props.length) :
    tileAt (setTileAt env r c t) r c = t := by
  unfold tileAt setTileAt
  exact listGetD_setI_self _ _ _ _ h0 h

theorem agentAt_setAgentN_setTileAt_self (env : Territories) (r c : Int) (t : Tile)
    (pid : ℕ) (a : Agent) (h : pid < env.agents.length) :
    agentAt (setAgentN (setTileAt env r c t) pid a) pid = a := by
  unfold agentAt setAgentN setTileAt
  exact listGetD_set_self _ _ _ _ h

theorem tileAt_setTileAt_agents (env : Territories) (r c : Int) (t : Tile) :
    (setTileAt env r c t).agents = env.agents := rfl

theorem agent_pickup_harvest (env : Territories) (pid : ℕ) (day : Int)
    (hpid : pid < env.agents.length)
    (hadr : 0 ≤ (agentAt env pid).r * env.width + (agentAt env pid).c)
    (hlen : ((agentAt env pid).r * env.width + (agentAt env pid).c).toNat < env.tile_props.length)
    (h0 : (tileAt env (agentAt env pid).r (agentAt env pid).c).stored_food = 0)
    (hgd : 0 < get_growth_days env (agentAt env pid).r (agentAt env pid).c) :
    ((agentAt (agent_pickup day pid env) pid).food_carried - (agentAt env pid).food_carried) +
      (tileAt (agent_pickup day pid env) (agentAt env pid).r (agentAt env pid).c).stored_food =
    crop_available (get_growth_days env (agentAt env pid).r (agentAt env pid).c) := by
  simp only [agent_pickup]
  rw [if_neg (by rw [h0]; exact lt_irrefl 0), if_pos hgd]
  rw [agentAt_setAgentN_setTileAt_self _ _ _ _ _ _ hpid, tileAt_setAgentN]
  rw [tileAt_setTileAt_self _ _ _ _ hadr hlen]
  split_ifs with hc
  · dsimp only
    omega
  · dsimp only
    rw [h0]
    omega

/-- Claim C5: the accumulated growth of a cell is 0 whenever it is
winter, the cell is not soil, or the cell holds stored food, stone or
a wall; otherwise it is `min(day - last_harvest, 70)` with
`day = (tick + 55) mod 110`; and a harvest (the crop branch of
`Pickup`) obtains exactly `floor(exp(0.07167543·growth_days) - 1)`
units of crop, split between the agent's carried food and the tile's
stored food. -/
theorem crop_growth_law (env : Territories) (r c day : Int) (pid : ℕ)
    (hpid : pid < env.agents.length)
    (hadr : 0 ≤ (agentAt env pid).r * env.width + (agentAt env pid).c)
    (hlen : ((agentAt env pid).r * env.width + (agentAt env pid).c).toNat < env.tile_props.length) :
    (get_growth_days env r c =
      if env.is_winter ∨ soilAt env r c = false ∨ 0 < (tileAt env r c).stored_food ∨
          0 < (tileAt env r c).stone ∨ 0 < (tileAt env r c).wall_hp then 0
      else min (Int.tmod (env.tick + 55) 110 - (tileAt env r c).last_harvest) 70) ∧
    (crop_available (get_growth_days env r c) =
      ⌊Real.exp (0.07167543 * (get_growth_days env r c : ℝ)) - 1⌋) ∧
    ((tileAt env (agentAt env pid).r (agentAt env pid).c).stored_food = 0 →
      0 < get_growth_days env (agentAt env pid).r (agentAt env pid).c →
      ((agentAt (agent_pickup day pid env) pid).food_carried - (agentAt env pid).food_carried) +
        (tileAt (agent_pickup day pid env) (agentAt env pid).r (agentAt env pid).c).stored_food =
      crop_available (get_growth_days env (agentAt env pid).r (agentAt env pid).c)) :=
  ⟨rfl, rfl, fun h0 hgd => agent_pickup_harvest env pid day hpid hadr hlen h0 hgd⟩

/-- Witness for claim C5 at a concrete state (one growth day). -/
theorem crop_growth_law_witness :
    (0 < cropEnv.agents.length ∧
     (tileAt cropEnv (agentAt cropEnv 0).r (agentAt cropEnv 0).c).stored_food = 0 ∧
     get_growth_days cropEnv (agentAt cropEnv 0).r (agentAt cropEnv 0).c = 1) ∧
    ((agentAt (agent_pickup 56 0 cropEnv) 0).food_carried - (agentAt cropEnv 0).food_carried) +
      (tileAt (agent_pickup 56 0 cropEnv) (agentAt cropEnv 0).r (agentAt cropEnv 0).c).stored_food =
      crop_available (get_growth_days cropEnv (agentAt cropEnv 0).r (agentAt cropEnv 0).c) :=
  ⟨⟨by decide, by decide, by decide⟩,
   (crop_growth_law cropEnv 0 0 56 0 (by decide) (by decide) (by decide)).2.2
     (by decide) (by decide)⟩

theorem pidAt_setAgentN (env : Territories) (pid : ℕ) (a : Agent) (r c : Int) :
    pidAt (setAgentN env pid a) r c = pidAt env r c := rfl

theorem tileAt_setAgentI (env : Territories) (p : Int) (a : Agent) (r c : Int) :
    tileAt (setAgentI env p a) r c = tileAt env r c := rfl

theorem agentAt_setAgentN_ne (env : Territories) (pid q : ℕ) (a : Agent) (hne : pid ≠ q) :
    agentAt (setAgentN env pid a) q = agentAt env q := by
  unfold agentAt setAgentN
  exact listGetD_set_ne _ _ _ _ _ hne

theorem agentAtI_natCast (env : Territories) (t : ℕ) :
    agentAtI env (t : Int) = agentAt env t := by
  unfold agentAtI agentAt listGetD
  rw [if_pos (by omega)]
  simp

theorem setAgentI_natCast (env : Territories) (t : ℕ) (a : Agent) :
    setAgentI env (t : Int) a = setAgentN env t a := by
  unfold setAgentI setAgentN listSetI
  rw [if_pos (by omega)]
  simp

theorem agents_setAgentN (env : Territories) (pid : ℕ) (a : Agent) :
    (setAgentN env pid a).agents = env.agents.set pid a := rfl

theorem pids_2d_setAgentN (env : Territories) (pid : ℕ) (a : Agent) :
    (setAgentN env pid a).pids_2d = env.pids_2d := rfl

/-- Claim C6 (amended): when an attack lands on an agent target `t`
(not a wall), then (i) if the blow takes `t` from 1 hp to exactly 0 hp
the attacker loots satiation, stone and food with the source's caps
and the target stays on the grid (the grid is unchanged), and (ii) a
later attacker hitting the same still-present 0-hp target deals a
further hit point of damage but does NOT loot again, because looting
fires only when the decrement lands exactly on zero. -/
theorem attack_loot_only_on_exact_zero (env : Territories) (pid t : ℕ) (dir rr cc : Int)
    (hscan : attack_scan env (agentAt env pid) = some (dir, rr, cc))
    (hnw : (tileAt env rr cc).wall_hp ≤ 0)
    (hpidat : pidAt env rr cc = (t : Int))
    (hne : t ≠ pid)
    (hlp : pid < env.agents.length) (hlt : t < env.agents.length) :
    ((agentAt env t).hp = 1 →
      (agentAt (agent_attack pid env) t).hp = 0 ∧
      (agentAt (agent_attack pid env) pid).satiation =
        min MAX_SATIATION ((agentAt env pid).satiation + Int.tdiv (agentAt env t).satiation 2) ∧
      (agentAt (agent_attack pid env) pid).stone_carried =
        min MAX_STONE_CARRYING_CAPACITY
          ((agentAt env pid).stone_carried + (agentAt env t).stone_carried) ∧
      (agentAt (agent_attack pid env) pid).food_carried =
        min MAX_FOOD_CARRYING_CAPACITY
          ((agentAt env pid).food_carried + (agentAt env t).food_carried) ∧
      (agent_attack pid env).pids_2d = env.pids_2d) ∧
    ((agentAt env t).hp ≤ 0 →
      (agentAt (agent_attack pid env) t).hp = (agentAt env t).hp - 1 ∧
      (agentAt (agent_attack pid env) pid).satiation = (agentAt env pid).satiation ∧
      (agentAt (agent_attack pid env) pid).stone_carried = (agentAt env pid).stone_carried ∧
      (agentAt (agent_attack pid env) pid).food_carried = (agentAt env pid).food_carried ∧
      (agent_attack pid env).pids_2d = env.pids_2d) := by
  have hne2 : pid ≠ t := Ne.symm hne
  constructor
  · intro h1
    refine ⟨?_, ?_, ?_, ?_, ?_⟩ <;>
    · simp only [agent_attack]
      rw [hscan]
      dsimp only
      rw [if_neg (show ¬ 0 < (tileAt env rr cc).wall_hp from by omega)]
      simp only [pidAt_setAgentN, hpidat, agentAtI_natCast, setAgentI_natCast]
      simp [agentAt_setAgentN_ne, agentAt_setAgentN_self, agents_setAgentN,
            pids_2d_setAgentN, List.length_set, hne2, hne, hlp, hlt, h1]
  · intro h2
    refine ⟨?_, ?_, ?_, ?_, ?_⟩ <;>
    · simp only [agent_attack]
      rw [hscan]
      dsimp only
      rw [if_neg (show ¬ 0 < (tileAt env rr cc).wall_hp from by omega)]
      simp only [pidAt_setAgentN, hpidat, agentAtI_natCast, setAgentI_natCast]
      rw [if_neg (by
        simp [agentAt_setAgentN_ne, agentAt_setAgentN_self, agents_setAgentN,
              List.length_set, hne2, hne, hlp, hlt]
        omega)]
      simp [agentAt_setAgentN_ne, agentAt_setAgentN_self, agents_setAgentN,
            pids_2d_setAgentN, List.length_set, hne2, hne, hlp, hlt]

/-- Counterexample to claim C6 as stated: in `lootEnv` a later
attacker hits the still-present 0-hp target (its hp drops to −1), but
it does NOT loot it again — satiation, stone and food of the attacker
are all unchanged, because the loot branch fires only when the
decrement lands exactly on zero. -/
theorem attack_zero_hp_target_not_looted :
    (agentAt lootEnv 1).hp = 0 ∧ pidAt lootEnv 0 2 = 1 ∧
    (agentAt (agent_attack 0 lootEnv) 1).hp = -1 ∧
    (agentAt (agent_attack 0 lootEnv) 0).satiation = (agentAt lootEnv 0).satiation ∧
    (agentAt (agent_attack 0 lootEnv) 0).stone_carried = (agentAt lootEnv 0).stone_carried ∧
    (agentAt (agent_attack 0 lootEnv) 0).food_carried = (agentAt lootEnv 0).food_carried := by
  decide

/-- Witness for the amended claim C6 at a concrete state (the loot
case: the blow lands exactly on zero). -/
theorem attack_loot_only_on_exact_zero_witness :
    (attack_scan lootEnv2 (agentAt lootEnv2 0) = some (1, 0, 2) ∧
     (tileAt lootEnv2 0 2).wall_hp ≤ 0 ∧ pidAt lootEnv2 0 2 = (1 : Int) ∧
     (agentAt lootEnv2 1).hp = 1) ∧
    ((agentAt (agent_attack 0 lootEnv2) 1).hp = 0 ∧
     (agentAt (agent_attack 0 lootEnv2) 0).satiation =
       min MAX_SATIATION ((agentAt lootEnv2 0).satiation + Int.tdiv (agentAt lootEnv2 1).satiation 2) ∧
     (agentAt (agent_attack 0 lootEnv2) 0).stone_carried =
       min MAX_STONE_CARRYING_CAPACITY
         ((agentAt lootEnv2 0).stone_carried + (agentAt lootEnv2 1).stone_carried) ∧
     (agentAt (agent_attack 0 lootEnv2) 0).food_carried =
       min MAX_FOOD_CARRYING_CAPACITY
         ((agentAt lootEnv2 0).food_carried + (agentAt lootEnv2 1).food_carried) ∧
     (agent_attack 0 lootEnv2).pids_2d = lootEnv2.pids_2d) :=
  ⟨⟨by decide, by decide, by decide, by decide⟩,
   (attack_loot_only_on_exact_zero lootEnv2 0 1 1 0 2 (by decide) (by decide) (by decide)
      (by decide) (by decide) (by decide)).1 (by decide)⟩

/-- Counterexample to claim C8 as stated: the tile of `wallEnv` meets
every precondition of the claim (non-soil, no stored food, no stone,
no wall, no agent), yet `place_wall` zeroes its `last_harvest = 5` and
`destroy_wall` on non-soil does not restore it, so the pair does not
restore the four tile properties. -/
theorem place_destroy_wipes_last_harvest :
    soilAt wallEnv 0 0 = false ∧ (tileAt wallEnv 0 0).stored_food = 0 ∧
    (tileAt wallEnv 0 0).stone = 0 ∧ (tileAt wallEnv 0 0).wall_hp = 0 ∧
    pidAt wallEnv 0 0 = -1 ∧
    (destroy_wall (place_wall wallEnv 0 0) 0 0).tile_props ≠ wallEnv.tile_props := by
  decide

theorem listSetI_listSetI {α : Type} (l : List α) (i : Int) (a b : α) :
    listSetI (listSetI l i a) i b = listSetI l i b := by
  unfold listSetI
  by_cases h : 0 ≤ i
  · simp [h, List.set_set]
  · simp [h]

theorem listSetI_self_value {α : Type} (l : List α) (i : Int) (d : α) (h0 : 0 ≤ i) :
    listSetI l i (listGetD l i d) = l := by
  unfold listSetI listGetD
  rw [if_pos h0, if_pos h0]
  exact listSet_getD_self l i.toNat d

theorem width_setTileAt (env : Territories) (r c : Int) (t : Tile) :
    (setTileAt env r c t).width = env.width := rfl

theorem tile_props_setTileAt (env : Territories) (r c : Int) (t : Tile) :
    (setTileAt env r c t).tile_props = listSetI env.tile_props (r * env.width + c) t := rfl

/-- Claim C8 (amended): on a non-soil cell with no stored food, stone
or wall, no agent, and additionally `last_harvest = 0`,
`place_wall` followed by `destroy_wall` restores the tile store
exactly.  (The extra `last_harvest = 0` precondition is forced:
`place_wall` zeroes the first three tile properties including
`last_harvest`, and `destroy_wall` re-stamps it only on soil in
summer.) -/
theorem place_destroy_roundtrip (env : Territories) (r c : Int)
    (hadr : 0 ≤ r * env.width + c)
    (hlen : (r * env.width + c).toNat < env.tile_props.length)
    (hsoil : soilAt env r c = false)
    (hlh : (tileAt env r c).last_harvest = 0)
    (hsf : (tileAt env r c).stored_food = 0)
    (hst : (tileAt env r c).stone = 0)
    (hw : (tileAt env r c).wall_hp = 0)
    (_hag : pidAt env r c = -1) :
    (destroy_wall (place_wall env r c) r c).tile_props = env.tile_props := by
  have ht : tileAt env r c = { last_harvest := 0, stored_food := 0, stone := 0, wall_hp := 0 } := by
    rcases hteq : tileAt env r c with ⟨a, b, s, w⟩
    rw [hteq] at hlh hsf hst hw
    simp_all
  unfold place_wall
  rw [if_neg (by omega)]
  unfold destroy_wall
  rw [tileAt_setTileAt_self _ _ _ _ hadr hlen]
  rw [if_neg (by decide)]
  rw [if_neg (by
    intro hcon
    have hsl : soilAt env r c = true := hcon.2
    rw [hsoil] at hsl
    exact Bool.false_ne_true hsl)]
  simp only [tile_props_setTileAt, width_setTileAt, listSetI_listSetI]
  have : ({ last_harvest := 0, stored_food := 0, stone := 0, wall_hp := 8 } : Tile)
      = { tileAt env r c with wall_hp := 8 } := by rw [ht]
  rw [show ({ last_harvest := ({ last_harvest := 0, stored_food := 0, stone := 0, wall_hp := (8:Int) } : Tile).last_harvest, stored_food := ({ last_harvest := 0, stored_food := 0, stone := 0, wall_hp := (8:Int) } : Tile).stored_food, stone := ({ last_harvest := 0, stored_food := 0, stone := 0, wall_hp := (8:Int) } : Tile).stone, wall_hp := (0:Int) } : Tile) = tileAt env r c from by rw [ht]]
  exact listSetI_self_value env.tile_props (r * env.width + c) default hadr

/-- Witness for the amended claim C8 at a concrete state. -/
theorem place_destroy_roundtrip_witness :
    (soilAt (mkEnv 1 1 1 1) 0 0 = false ∧ (tileAt (mkEnv 1 1 1 1) 0 0).last_harvest = 0 ∧
     (tileAt (mkEnv 1 1 1 1) 0 0).stored_food = 0 ∧ (tileAt (mkEnv 1 1 1 1) 0 0).stone = 0 ∧
     (tileAt (mkEnv 1 1 1 1) 0 0).wall_hp = 0 ∧ pidAt (mkEnv 1 1 1 1) 0 0 = -1) ∧
    (destroy_wall (place_wall (mkEnv 1 1 1 1) 0 0) 0 0).tile_props = (mkEnv 1 1 1 1).tile_props :=
  ⟨⟨by decide, by decide, by decide, by decide, by decide, by decide⟩,
   place_destroy_roundtrip (mkEnv 1 1 1 1) 0 0 (by decide) (by decide) (by decide) (by decide)
     (by decide) (by decide) (by decide) (by decide)⟩

theorem flat_addr_lt (M i j : ℕ) (hi : i < M) (hj : j < M) : i * M + j < M * M := by
  calc i * M + j < i * M + M := by omega
    _ = (i + 1) * M := by ring
    _ ≤ M * M := Nat.mul_le_mul_right M hi

theorem flat_addr_inj (M i j a b : ℕ) (hj : j < M) (hb : b < M)
    (h : i * M + j = a * M + b) : i = a ∧ j = b := by
  have h1 : i = a := by
    have e1 : (i * M + j) / M = i := by
      rw [Nat.mul_comm, Nat.mul_add_div (by omega)]
      simp [Nat.div_eq_of_lt hj]
    have e2 : (a * M + b) / M = a := by
      rw [Nat.mul_comm, Nat.mul_add_div (by omega)]
      simp [Nat.div_eq_of_lt hb]
    rw [← e1, h, e2]
  subst h1
  omega

theorem getD_replicate_zero (n a : ℕ) : (List.replicate n (0 : ℕ)).getD a 0 = 0 := by
  induction n generalizing a with
  | zero => simp
  | succ n ih => cases a <;> simp [List.replicate_succ, ih]

theorem getD_foldl_set (L : List ℕ) (f : ℕ → ℕ) (v : ℕ) (l : List ℕ) (a : ℕ) (d : ℕ) :
    (L.foldl (fun acc x => acc.set (f x) v) l).getD a d =
      if (∃ x ∈ L, f x = a) ∧ a < l.length then v else l.getD a d := by
  induction L generalizing l with
  | nil => simp
  | cons x t ih =>
    rw [List.foldl_cons, ih]
    have hlen : (l.set (f x) v).length = l.length := by simp
    by_cases hal : a < l.length
    · by_cases hmem : ∃ y ∈ t, f y = a
      · simp [hmem, hal, hlen]
      · by_cases hfx : f x = a
        · rw [if_neg (by rintro ⟨hex, _⟩; exact hmem hex), if_pos ⟨⟨x, by simp, hfx⟩, hal⟩]
          rw [← hfx]
          exact listGetD_set_self _ _ _ _ (hfx ▸ hal)
        · rw [if_neg (by rintro ⟨hex, _⟩; exact hmem hex), if_neg (by
            rintro ⟨⟨y, hy, hfy⟩, _⟩
            rcases List.mem_cons.mp hy with rfl | hyt
            · exact hfx hfy
            · exact hmem ⟨y, hyt, hfy⟩)]
          exact listGetD_set_ne _ _ _ _ _ hfx
    · rw [if_neg (by rintro ⟨_, hl⟩; rw [hlen] at hl; exact hal hl),
          if_neg (by rintro ⟨_, hl⟩; exact hal hl)]
      have h1 : l.length ≤ a := by omega
      rw [List.getD_eq_default _ _ (by simpa [hlen] using h1),
          List.getD_eq_default _ _ h1]

theorem kGetN_reset (env : Territories) (i j : ℕ)
    (hi : i < env.max_agents) (hj : j < env.max_agents) :
    kGetN (kinship_matrix_reset env) i j = if i = j then env.n_genes else 0 := by
  unfold kGetN kinship_matrix_reset
  rw [getD_foldl_set]
  by_cases hij : i = j
  · subst hij
    rw [if_pos ⟨⟨i, List.mem_range.mpr hi, rfl⟩,
         by simpa using flat_addr_lt env.max_agents i i hi hi⟩, if_pos rfl]
  · rw [if_neg (by
      rintro ⟨⟨x, hx, hfx⟩, _⟩
      obtain ⟨h1, h2⟩ := flat_addr_inj env.max_agents x x i j
        (List.mem_range.mp hx) hj hfx
      exact hij (h1 ▸ h2 ▸ rfl)), if_neg hij]
    exact getD_replicate_zero _ _

theorem kGet_two_sets (K : List ℕ) (M p q i j kin : ℕ)
    (hk : K.length = M * M) (hp : p < M) (hq : q < M) (hi : i < M) (hj : j < M)
    (hpq : p ≠ q) :
    ((K.set (p * M + q) kin).set (q * M + p) kin).getD (i * M + j) 0 =
      if i = p ∧ j = q then kin
      else if i = q ∧ j = p then kin
      else K.getD (i * M + j) 0 := by
  by_cases h1 : i = q ∧ j = p
  · obtain ⟨rfl, rfl⟩ := h1
    rw [listGetD_set_self _ _ _ _ (by rw [List.length_set, hk]; exact flat_addr_lt M i j hi hj)]
    rw [if_neg (by rintro ⟨e1, e2⟩; exact hpq e1.symm), if_pos ⟨rfl, rfl⟩]
  · rw [listGetD_set_ne _ _ _ _ _ (by
      intro he
      obtain ⟨e1, e2⟩ := flat_addr_inj M q p i j hp hj he
      exact h1 ⟨e1.symm, e2.symm⟩)]
    by_cases h2 : i = p ∧ j = q
    · obtain ⟨rfl, rfl⟩ := h2
      rw [listGetD_set_self _ _ _ _ (by rw [hk]; exact flat_addr_lt M i j hi hj)]
      rw [if_pos ⟨rfl, rfl⟩]
    · rw [listGetD_set_ne _ _ _ _ _ (by
        intro he
        obtain ⟨e1, e2⟩ := flat_addr_inj M p q i j hq hj he
        exact h2 ⟨e1.symm, e2.symm⟩)]
      rw [if_neg h2, if_neg h1]

theorem listSetI_natCast {α : Type} (l : List α) (n : ℕ) (v : α) :
    listSetI l (n : Int) v = l.set n v := by
  unfold listSetI
  rw [if_pos (by omega)]
  simp

theorem kinship_update_body_eq (p : ℕ) (e : Territories) (pid2 : ℕ)
    (hg : ¬ (¬ aliveMaskGet e pid2 ∨ (pid2 : Int) = (p : Int))) :
    (kinship_update_body (p : Int) e pid2).kinship_matrix =
      (e.kinship_matrix.set (p * e.max_agents + pid2) (kinship_get e p pid2)).set
        (pid2 * e.max_agents + p) (kinship_get e p pid2) ∧
    (kinship_update_body (p : Int) e pid2).max_agents = e.max_agents ∧
    (kinship_update_body (p : Int) e pid2).n_genes = e.n_genes := by
  unfold kinship_update_body
  rw [if_neg hg]
  refine ⟨?_, rfl, rfl⟩
  dsimp only
  rw [show ((p : Int) * (e.max_agents : Int) + (pid2 : Int)) =
        ((p * e.max_agents + pid2 : ℕ) : Int) from by push_cast; ring,
      show ((pid2 : Int) * (e.max_agents : Int) + (p : Int)) =
        ((pid2 * e.max_agents + p : ℕ) : Int) from by push_cast; ring,
      listSetI_natCast, listSetI_natCast]

theorem kinship_update_body_inv (p pid2 : ℕ) (e : Territories)
    (hp : p < e.max_agents) (hp2 : pid2 < e.max_agents)
    (hk : e.kinship_matrix.length = e.max_agents * e.max_agents)
    (hinv : KinshipInv e) :
    KinshipInv (kinship_update_body (p : Int) e pid2) ∧
    (kinship_update_body (p : Int) e pid2).max_agents = e.max_agents ∧
    (kinship_update_body (p : Int) e pid2).n_genes = e.n_genes ∧
    (kinship_update_body (p : Int) e pid2).kinship_matrix.length = e.kinship_matrix.length := by
  by_cases hg : ¬ aliveMaskGet e pid2 ∨ (pid2 : Int) = (p : Int)
  · have heq : kinship_update_body (p : Int) e pid2 = e := by
      unfold kinship_update_body
      rw [if_pos hg]
    rw [heq]
    exact ⟨hinv, rfl, rfl, rfl⟩
  · obtain ⟨hK, hM, hG⟩ := kinship_update_body_eq p e pid2 hg
    have hne : p ≠ pid2 := by
      intro h
      exact hg (Or.inr (by rw [h]))
    refine ⟨?_, hM, hG, by rw [hK]; simp⟩
    intro i hi
    rw [hM] at hi
    constructor
    · unfold kGetN
      rw [hK, hM, hG]
      rw [kGet_two_sets e.kinship_matrix e.max_agents p pid2 i i _ hk hp hp2 hi hi hne]
      rw [if_neg (by rintro ⟨rfl, rfl⟩; exact hne rfl),
          if_neg (by rintro ⟨rfl, rfl⟩; exact hne rfl)]
      exact (hinv i hi).1
    · intro j hj
      rw [hM] at hj
      unfold kGetN
      rw [hK, hM]
      rw [kGet_two_sets e.kinship_matrix e.max_agents p pid2 i j _ hk hp hp2 hi hj hne,
          kGet_two_sets e.kinship_matrix e.max_agents p pid2 j i _ hk hp hp2 hj hi hne]
      split_ifs <;>
        first
          | rfl
          | exact (hinv i hi).2 j hj
          | (exfalso; omega)

theorem kinship_fold_inv (L : List ℕ) (p : ℕ) (e : Territories)
    (hL : ∀ x ∈ L, x < e.max_agents)
    (hp : p < e.max_agents)
    (hk : e.kinship_matrix.length = e.max_agents * e.max_agents)
    (hinv : KinshipInv e) :
    KinshipInv (L.foldl (kinship_update_body (p : Int)) e) := by
  induction L generalizing e with
  | nil => exact hinv
  | cons x t ih =>
    rw [List.foldl_cons]
    obtain ⟨hinvb, hM, hG, hKlen⟩ :=
      kinship_update_body_inv p x e hp (hL x (by simp)) hk hinv
    exact ih (kinship_update_body (p : Int) e x)
      (fun y hy => by rw [hM]; exact hL y (by simp [hy]))
      (by rw [hM]; exact hp)
      (by rw [hKlen, hk, hM])
      hinvb

/-- Claim C7: the kinship matrix is symmetric with diagonal `n_genes`
for every slot: `kinship_matrix_reset` establishes the invariant over
all slots, `kinship_matrix_update` — the only kinship mutation, run on
each birth and writing both the row and the column of the new slot —
preserves it, and `kill_agent` (death) never touches the matrix. -/
theorem kinship_symmetric_diagonal (env : Territories) (p : ℕ)
    (hp : p < env.max_agents)
    (hk : env.kinship_matrix.length = env.max_agents * env.max_agents)
    (hinv : KinshipInv env) :
    KinshipInv (kinship_matrix_reset env) ∧
    KinshipInv (kinship_matrix_update env (p : Int)) ∧
    ∀ q : ℕ, (kill_agent env q).kinship_matrix = env.kinship_matrix := by
  refine ⟨?_, ?_, ?_⟩
  · intro i hi
    constructor
    · rw [kGetN_reset env i i hi hi, if_pos rfl]
      rfl
    · intro j hj
      rw [kGetN_reset env i j hi hj, kGetN_reset env j i hj hi]
      by_cases h : i = j
      · simp [h]
      · rw [if_neg h, if_neg (Ne.symm h)]
  · unfold kinship_matrix_update
    exact kinship_fold_inv _ p _ (fun x hx => List.mem_range.mp hx) hp hk hinv
  · intro q
    unfold kill_agent
    split <;> rfl

/-- Witness for claim C7 at a concrete state. -/
theorem kinship_symmetric_diagonal_witness :
    (0 < deltaEnv.max_agents ∧
     deltaEnv.kinship_matrix.length = deltaEnv.max_agents * deltaEnv.max_agents ∧
     KinshipInv deltaEnv) ∧
    (KinshipInv (kinship_matrix_reset deltaEnv) ∧
     KinshipInv (kinship_matrix_update deltaEnv ((0 : ℕ) : Int)) ∧
     (kill_agent deltaEnv 1).kinship_matrix = deltaEnv.kinship_matrix) :=
  ⟨⟨by decide, by decide, by decide⟩,
   have h := kinship_symmetric_diagonal deltaEnv 0 (by decide) (by decide) (by decide)
   ⟨h.1, h.2.1, h.2.2 1⟩⟩

